import Mathlib

/-!
Verification of the time-stepping scheduler and the view/event-handler stack of
the arcade `application.py` core (`Window`, `View`).

The embedding is a shallow one: Python floats are modelled with exact rationals,
the pyglet scheduling facility and the handler stack are modelled at the
interface boundary described in the spec (schedule/unschedule flags, a list of
pushed handler frames), and the side effects of one call (lifecycle hooks,
handler pushes and removals) are recorded as an explicit action trace.
-/

namespace Arcade

/-- Clock from `arcade.clock`. Modelled from the spec: `arcade/clock.py` is not
under `src/`; the spec (section 3) gives the single mutator `tick(dt)` with
`time += dt; delta_time = dt`. -/
structure Clock where
  time : ℚ
  delta_time : ℚ
deriving DecidableEq

def Clock.tick (c : Clock) (dt : ℚ) : Clock :=
  { time := c.time + dt, delta_time := dt }

/-- FixedClock from `arcade.clock`. Modelled from the spec: `arcade/clock.py` is
not under `src/`. The spec (section 4.2) says the accumulated un-consumed time
is "tracked as the gap between global time and fixed time", and (section 3)
`tick(fixed_rate)` does `accumulated -= fixed_rate; time += fixed_rate`, which
in the gap representation is `time += fixed_rate`. -/
structure FixedClock where
  fixed_rate : ℚ
  time : ℚ
deriving DecidableEq

def FixedClock.accumulated (fc : FixedClock) (g : Clock) : ℚ :=
  g.time - fc.time

def FixedClock.tick (fc : FixedClock) (r : ℚ) : FixedClock :=
  { fc with time := fc.time + r }

/-- The message of the configuration error for a non-positive fixed rate. -/
def fixedRateError : String :=
  "fixed_rate must be positive"

/-- Modelled from the spec: `arcade/clock.py` is not under `src/`. The spec
(sections 3, 4.2, 7) requires `fixed_rate > 0`; a non-positive rate is a
construction-time fatal error, raised where the `FixedClock` is created. -/
def FixedClock.create (rate : ℚ) : Except String FixedClock :=
  if rate ≤ 0 then Except.error fixedRateError
  else Except.ok { fixed_rate := rate, time := 0 }

/-- SectionManager, modelled from the spec: `arcade/sections.py` is not under
`src/`. The spec (sections 2, 4.4) treats it as an optional per-View overlay
claiming a reserved subset of event names, its `managed_events`. -/
structure SectionManagerM where
  managed_events : List String
deriving DecidableEq

/-- One `arcade.View` instance: the optional back-reference to a window (by its
id), the lazily created section manager, and the set `defined_events` of event
names `e` for which `hasattr(view, e)` holds. -/
structure ViewM where
  id : ℕ
  window : Option ℕ
  sectionManager : Option SectionManagerM
  defined_events : List String
deriving DecidableEq

/-- `View.has_sections`: whether the view delegates a reserved event subset to a
section manager.  In the spec's model of the external collaborator (section 2)
this is exactly the presence of the overlay. -/
def ViewM.has_sections (v : ViewM) : Bool :=
  v.sectionManager.isSome

/-- `View.__init__`: `self.window = arcade.get_window() if window is None else
window` and `self._section_manager = None`.  `arcade.get_window`
(`window_commands.py`, not under `src/`) is modelled from the spec (section 9)
as the optional global current-window singleton, passed here as
`globalWindow`. -/
def View.init (id : ℕ) (defined_events : List String) (window : Option ℕ)
    (globalWindow : Option ℕ) : ViewM :=
  { id := id
    window :=
      match window with
      | none => globalWindow
      | some wid => some wid
    sectionManager := none
    defined_events := defined_events }

/-- The owner of a pushed handler frame on the dispatcher's handler stack. -/
inductive Owner where
  | window
  | view (id : ℕ)
  | sectionManager (id : ℕ)
deriving DecidableEq

/-- One frame pushed with `push_handlers(**named_callables)`: its owner and the
event names it handles. -/
structure Frame where
  owner : Owner
  events : List String
deriving DecidableEq

/-- `remove_handlers(obj)`: drop every frame that was pushed for `obj`. -/
def removeOwner (o : Owner) (stack : List Frame) : List Frame :=
  stack.filter fun f => !(decide (f.owner = o))

/-- The state of one `arcade.Window`: its two clocks, the scheduling
configuration, the pyglet periodic triggers modelled as boolean
scheduled-or-not flags (spec section 6 interface boundary), the registered
event names, the active view and the handler stack. -/
structure Window where
  id : ℕ
  global_clock : Clock
  fixed_clock : FixedClock
  update_rate : ℚ
  draw_rate : ℚ
  fixed_rate : ℚ
  fixed_frame_cap : Option ℕ
  updateScheduled : Bool
  drawScheduled : Bool
  closed : Bool
  event_types : List String
  current_view : Option ViewM
  handler_stack : List Frame
deriving DecidableEq

/-- `Window.set_update_rate`: store the rate, then unschedule and reschedule
`_dispatch_updates` on the pyglet clock. -/
def Window.set_update_rate (w : Window) (rate : ℚ) : Window :=
  { w with update_rate := rate, updateScheduled := true }

/-- `Window.set_draw_rate`: store the rate, then unschedule and reschedule the
event loop's `_redraw_windows` on the pyglet clock. -/
def Window.set_draw_rate (w : Window) (rate : ℚ) : Window :=
  { w with draw_rate := rate, drawScheduled := true }

/-- `Window.close`: close the pyglet window and unschedule `_dispatch_updates`.
No other callback is unscheduled by `close`. -/
def Window.close (w : Window) : Window :=
  { w with closed := true, updateScheduled := false }

/-- The scheduler-relevant part of `Window.__init__` (graphics configuration
omitted): register the `on_update`, `on_action` and `on_fixed_update` event
types, create the two clocks (the `fixed_rate > 0` validation happens where the
`FixedClock` is created), store `draw_rate`, `fixed_rate` and
`fixed_frame_cap`, push the window's own `on_resize` handler, and schedule the
update trigger via `set_update_rate`.  Draw scheduling is deliberately deferred
to `run()` (source comment at lines 215-218), so the draw trigger is not
scheduled here. -/
def windowInit (id : ℕ) (baseEventTypes : List String)
    (update_rate draw_rate fixed_rate : ℚ) (fixed_frame_cap : Option ℕ) :
    Except String Window :=
  match FixedClock.create fixed_rate with
  | Except.error e => Except.error e
  | Except.ok fc =>
    let w : Window :=
      { id := id
        global_clock := { time := 0, delta_time := 0 }
        fixed_clock := fc
        update_rate := update_rate
        draw_rate := draw_rate
        fixed_rate := fixed_rate
        fixed_frame_cap := fixed_frame_cap
        updateScheduled := false
        drawScheduled := false
        closed := false
        event_types := baseEventTypes ++ ["on_update", "on_action", "on_fixed_update"]
        current_view := none
        handler_stack := [{ owner := Owner.window, events := ["on_resize"] }] }
    Except.ok (w.set_update_rate update_rate)

/-- The update events dispatched by one firing of `_dispatch_updates`. -/
inductive UpdateEvent where
  | fixedUpdate (dt : ℚ)
  | update (dt : ℚ)
deriving DecidableEq

def UpdateEvent.isFixed : UpdateEvent → Bool
  | UpdateEvent.fixedUpdate _ => true
  | UpdateEvent.update _ => false

/-- The guard `self._fixed_frame_cap is None or fixed_count <= self._fixed_frame_cap`
of the catch-up loop in `_dispatch_updates`. -/
def capOk : Option ℕ → ℕ → Bool
  | none, _ => true
  | some n, count => decide (count ≤ n)

/-- The catch-up `while` loop of `_dispatch_updates`:
`while fixed_clock.accumulated >= fixed_rate and (cap is None or count <= cap):
fixed_clock.tick(fixed_rate); dispatch on_fixed_update(fixed_rate); count += 1`.
The loop is written with explicit fuel; `dispatchUpdates` supplies
`floor(accumulated / fixed_rate) + 1`, which exceeds the number of iterations
the guard permits (each iteration needs `accumulated ≥ fixed_rate` and lowers
`accumulated` by exactly `fixed_rate`), so the fuel never runs out — see
`drainLoop_fuel_irrelevant`. -/
def drainLoop : ℕ → Window → ℕ → List UpdateEvent → Window × ℕ × List UpdateEvent
  | 0, w, count, evs => (w, count, evs)
  | fuel + 1, w, count, evs =>
    if FixedClock.accumulated w.fixed_clock w.global_clock ≥ w.fixed_rate ∧
        capOk w.fixed_frame_cap count = true then
      drainLoop fuel { w with fixed_clock := w.fixed_clock.tick w.fixed_rate } (count + 1)
        (evs ++ [UpdateEvent.fixedUpdate w.fixed_rate])
    else
      (w, count, evs)

/-- `Window._dispatch_updates(delta_time)`: tick the global clock, run the
fixed-update catch-up loop, then dispatch exactly one `on_update` carrying the
frame delta. -/
def Window.dispatchUpdates (w : Window) (delta_time : ℚ) : Window × List UpdateEvent :=
  let w1 : Window := { w with global_clock := w.global_clock.tick delta_time }
  let fuel : ℕ :=
    (Rat.floor (FixedClock.accumulated w1.fixed_clock w1.global_clock / w1.fixed_rate)).toNat + 1
  let r := drainLoop fuel w1 0 []
  (r.1, r.2.2 ++ [UpdateEvent.update delta_time])

/-- An argument passed to `Window.show_view`: either an `arcade.View` or a
value of some other type (carrying its type name). -/
inductive PyValue where
  | view (v : ViewM)
  | other (typeName : String)
deriving DecidableEq

/-- The observable side effects of one `show_view`/`hide_view` call, in the
order they are performed: lifecycle hooks invoked, handler frames pushed or
removed, the window back-reference bound, `current_view` written. -/
inductive Action where
  | bindWindow (viewId : ℕ)
  | hideHook (viewId : ℕ)
  | smHideHook (viewId : ℕ)
  | removeSmHandlers (viewId : ℕ)
  | removeViewHandlers (viewId : ℕ)
  | setCurrentView (viewId : ℕ)
  | clearCurrentView
  | pushSmHandlers (viewId : ℕ) (names : List String)
  | pushViewHandlers (viewId : ℕ) (names : List String)
  | showHook (viewId : ℕ)
  | showViewHook (viewId : ℕ)
  | smShowViewHook (viewId : ℕ)
deriving DecidableEq

/-- Outcome of `show_view`: either success, or the `TypeError` raised by the
`isinstance` precondition check.  Both carry the window state as left by the
call and the trace of actions performed before returning or raising. -/
inductive ShowResult where
  | ok (w : Window) (trace : List Action)
  | typeError (w : Window) (trace : List Action)
deriving DecidableEq

/-- Lines 825-826 of `show_view`: `if new_view.window is None:
new_view.window = self`. -/
def bindStep (windowId : ℕ) (v : ViewM) : ViewM × List Action :=
  if v.window = none then ({ v with window := some windowId }, [Action.bindWindow v.id])
  else (v, [])

/-- Lines 837-841 of `show_view`: if a view is currently shown, invoke its
`on_hide_view` hook, remove its section manager's handlers when it has
sections, then remove the view's own handlers. -/
def hideCurrentStep (w : Window) : List Frame × List Action :=
  match w.current_view with
  | none => (w.handler_stack, [])
  | some c =>
    if c.has_sections then
      (removeOwner (Owner.view c.id) (removeOwner (Owner.sectionManager c.id) w.handler_stack),
       [Action.hideHook c.id, Action.removeSmHandlers c.id, Action.removeViewHandlers c.id])
    else
      (removeOwner (Owner.view c.id) w.handler_stack,
       [Action.hideHook c.id, Action.removeViewHandlers c.id])

/-- Lines 845-854 of `show_view`: when the new view has sections, collect its
section manager's `managed_events`, build the section handler dict and push it
when non-empty; otherwise the managed-event set is empty.  Returns the managed
set, the new stack and the actions. -/
def smPushStep (stack : List Frame) (v : ViewM) : List String × List Frame × List Action :=
  match v.sectionManager with
  | some m =>
    if m.managed_events = [] then (m.managed_events, stack, [])
    else
      (m.managed_events,
       { owner := Owner.sectionManager v.id, events := m.managed_events } :: stack,
       [Action.pushSmHandlers v.id m.managed_events])
  | none => ([], stack, [])

/-- Lines 858-864 of `show_view`: the view handler dict binds every registered
event type except the one-time `"on_show"` and the section-managed names, for
the names the view actually defines. -/
def viewHandlerNames (eventTypes managed : List String) (v : ViewM) : List String :=
  eventTypes.filter fun e =>
    !(decide (e = "on_show")) && !(managed.contains e) && v.defined_events.contains e

/-- Lines 858-866 of `show_view`: push the view handler dict when non-empty. -/
def viewPushStep (stack : List Frame) (eventTypes managed : List String) (v : ViewM) :
    List Frame × List Action :=
  if viewHandlerNames eventTypes managed v = [] then (stack, [])
  else
    ({ owner := Owner.view v.id, events := viewHandlerNames eventTypes managed v } :: stack,
     [Action.pushViewHandlers v.id (viewHandlerNames eventTypes managed v)])

/-- Lines 867-870 of `show_view`: invoke `on_show`, then `on_show_view`, then
the section manager's `on_show_view` when the view has sections. -/
def shownHooks (v : ViewM) : List Action :=
  [Action.showHook v.id, Action.showViewHook v.id] ++
    (if v.has_sections then [Action.smShowViewHook v.id] else [])

/-- `Window.show_view(new_view)` (lines 803-870): raise `TypeError` when the
argument is not a `View` (before any mutation); otherwise bind the window
back-reference if unset, hide the previously shown view, set `current_view` to
the new view, push the section manager's handlers and then the view's own
handlers, and finally invoke the shown hooks. -/
def Window.show_view (w : Window) (pv : PyValue) : ShowResult :=
  match pv with
  | PyValue.other _ => ShowResult.typeError w []
  | PyValue.view v =>
    let v1 := (bindStep w.id v).1
    let bindTr := (bindStep w.id v).2
    let stack1 := (hideCurrentStep w).1
    let hideTr := (hideCurrentStep w).2
    let managed := (smPushStep stack1 v1).1
    let stack2 := (smPushStep stack1 v1).2.1
    let smTr := (smPushStep stack1 v1).2.2
    let stack3 := (viewPushStep stack2 w.event_types managed v1).1
    let vTr := (viewPushStep stack2 w.event_types managed v1).2
    ShowResult.ok { w with current_view := some v1, handler_stack := stack3 }
      (bindTr ++ hideTr ++ Action.setCurrentView v1.id :: (smTr ++ vTr ++ shownHooks v1))

/-- `Window.hide_view()` (lines 876-892): no-op when no view is shown;
otherwise invoke the view's `on_hide_view`, then (when it has sections) the
section manager's `on_hide_view` and remove the manager's handlers, remove the
view's own handlers, and clear `current_view`. -/
def Window.hide_view (w : Window) : Window × List Action :=
  match w.current_view with
  | none => (w, [])
  | some c =>
    if c.has_sections then
      let stack2 :=
        removeOwner (Owner.view c.id) (removeOwner (Owner.sectionManager c.id) w.handler_stack)
      ({ w with current_view := none, handler_stack := stack2 },
       [Action.hideHook c.id, Action.smHideHook c.id, Action.removeSmHandlers c.id,
        Action.removeViewHandlers c.id, Action.clearCurrentView])
    else
      let stack2 := removeOwner (Owner.view c.id) w.handler_stack
      ({ w with current_view := none, handler_stack := stack2 },
       [Action.hideHook c.id, Action.removeViewHandlers c.id, Action.clearCurrentView])

/-- The action trace of a `show_view` call. -/
def showTrace (w : Window) (pv : PyValue) : List Action :=
  match w.show_view pv with
  | ShowResult.ok _ tr => tr
  | ShowResult.typeError _ tr => tr

/-- The window state left by a `show_view` call. -/
def shownWindowOf : ShowResult → Window
  | ShowResult.ok w _ => w
  | ShowResult.typeError w _ => w

def Action.isPush : Action → Bool
  | Action.pushSmHandlers _ _ => true
  | Action.pushViewHandlers _ _ => true
  | _ => false

def Action.isSetCurrent : Action → Bool
  | Action.setCurrentView _ => true
  | _ => false

def Action.isShownHook : Action → Bool
  | Action.showHook _ => true
  | Action.showViewHook _ => true
  | Action.smShowViewHook _ => true
  | _ => false

/-- `noneBefore p q tr`: no `p`-action occurs strictly before the first
`q`-action of `tr`. -/
def noneBefore (p q : Action → Bool) : List Action → Bool
  | [] => true
  | a :: t => if q a then true else if p a then false else noneBefore p q t

/-- `noneAfter p q tr`: no `p`-action occurs strictly after a `q`-action of
`tr`. -/
def noneAfter (p q : Action → Bool) : List Action → Bool
  | [] => true
  | a :: t => if q a then t.all (fun b => !(p b)) else noneAfter p q t

/-- Does an action bind event name `e` to a view's own handlers? -/
def bindsToView (e : String) : Action → Bool
  | Action.pushViewHandlers _ names => names.contains e
  | _ => false

/-- Every frame of the stack is owned by the window itself. -/
def allWindowOwned (stack : List Frame) : Bool :=
  stack.all fun f => decide (f.owner = Owner.window)

/-- The handler-stack ownership invariant the show/hide protocol maintains:
every pushed frame belongs to the window itself, to the currently shown view,
or (when that view has sections) to its section manager. -/
def frameOwnerOK (cur : Option ViewM) (f : Frame) : Bool :=
  match cur with
  | none => decide (f.owner = Owner.window)
  | some c =>
    decide (f.owner = Owner.window) || decide (f.owner = Owner.view c.id) ||
      (c.has_sections && decide (f.owner = Owner.sectionManager c.id))

def ownersOK (w : Window) : Bool :=
  w.handler_stack.all (frameOwnerOK w.current_view)

/-- The event name reserved for mouse presses, used in concrete scenarios. -/
def mousePressName : String :=
  "on_mouse_press"

/-- A freshly constructed window with the default rates (`1/60` everywhere), no
fixed-frame cap, no active view, and the window's own `on_resize` frame on the
handler stack. -/
def baseWindow : Window :=
  { id := 0
    global_clock := { time := 0, delta_time := 0 }
    fixed_clock := { fixed_rate := 1/60, time := 0 }
    update_rate := 1/60
    draw_rate := 1/60
    fixed_rate := 1/60
    fixed_frame_cap := none
    updateScheduled := true
    drawScheduled := false
    closed := false
    event_types := ["on_show", "on_show_view", "on_draw", "on_update", "on_fixed_update",
      "on_mouse_press", "on_key_press"]
    current_view := none
    handler_stack := [{ owner := Owner.window, events := ["on_resize"] }] }

/-- `baseWindow` with `fixed_frame_cap = 1`. -/
def cappedWindow : Window :=
  { baseWindow with fixed_frame_cap := some 1 }

/-- A view with no section manager that overrides `on_draw` and `on_update`. -/
def plainView : ViewM :=
  { id := 1, window := some 0, sectionManager := none,
    defined_events := ["on_draw", "on_update"] }

/-- A view whose section manager claims the mouse-press event. -/
def sectionedView : ViewM :=
  { id := 2, window := some 0,
    sectionManager := some { managed_events := ["on_mouse_press"] },
    defined_events := ["on_draw", "on_mouse_press"] }

/-- A window on which `sectionedView` is the active view, with the view's and
its section manager's frames pushed above the window's own frame. -/
def activeWindow : Window :=
  { baseWindow with
      current_view := some sectionedView
      handler_stack :=
        [{ owner := Owner.sectionManager 2, events := ["on_mouse_press"] },
         { owner := Owner.view 2, events := ["on_draw"] },
         { owner := Owner.window, events := ["on_resize"] }] }


/-! ### Helper lemmas about traces and the handler stack -/

/-- `noneBefore` survives a leading list free of both `p`- and `q`-actions. -/
theorem noneBefore_append_left {p q : Action → Bool} {l1 l2 : List Action}
    (h1 : ∀ a ∈ l1, p a = false ∧ q a = false) (h2 : noneBefore p q l2 = true) :
    noneBefore p q (l1 ++ l2) = true := by
  induction l1 with
  | nil => simpa using h2
  | cons a t ih =>
    have ha := h1 a (by simp)
    simp only [List.cons_append, noneBefore, ha.1, ha.2, if_false, Bool.false_eq_true]
    exact ih fun b hb => h1 b (by simp [hb])

/-- `noneBefore` holds when the list opens with a `q`-action. -/
theorem noneBefore_cons_of_stop {p q : Action → Bool} {a : Action} {l : List Action}
    (h : q a = true) : noneBefore p q (a :: l) = true := by
  simp [noneBefore, h]

/-- A list with no `p`-action satisfies `noneAfter p q`. -/
theorem noneAfter_of_all_not_p {p q : Action → Bool} {l : List Action}
    (h : ∀ a ∈ l, p a = false) : noneAfter p q l = true := by
  induction l with
  | nil => rfl
  | cons a t ih =>
    have ht : ∀ b ∈ t, p b = false := fun b hb => h b (by simp [hb])
    by_cases hq : q a = true
    · simp only [noneAfter, hq, if_true]
      simpa [List.all_eq_true] using fun b hb => ht b hb
    · simp only [noneAfter, Bool.not_eq_true] at hq ⊢
      rw [hq]
      simpa using ih ht

/-- `noneAfter p q` holds on `l1 ++ l2` when `l1` has no `q`-action and `l2`
has no `p`-action. -/
theorem noneAfter_append {p q : Action → Bool} {l1 l2 : List Action}
    (h1 : ∀ a ∈ l1, q a = false) (h2 : ∀ a ∈ l2, p a = false) :
    noneAfter p q (l1 ++ l2) = true := by
  induction l1 with
  | nil => simpa using noneAfter_of_all_not_p h2
  | cons a t ih =>
    have ha := h1 a (by simp)
    simp only [List.cons_append, noneAfter, ha, Bool.false_eq_true, if_false]
    exact ih fun b hb => h1 b (by simp [hb])

/-- Actions of the bind step are not pushes, not the `current_view` write, not
shown hooks, and bind nothing to view handlers. -/
theorem bindStep_classes (wid : ℕ) (v : ViewM) :
    ∀ a ∈ (bindStep wid v).2,
      a.isPush = false ∧ a.isSetCurrent = false ∧ a.isShownHook = false ∧
        ∀ e, bindsToView e a = false := by
  unfold bindStep
  split <;> intro a ha <;>
    simp only [List.mem_cons, List.not_mem_nil, or_false] at ha
  · rcases ha with rfl
    exact ⟨rfl, rfl, rfl, fun e => rfl⟩

/-- Actions of the hide-previous-view step are not pushes, not the
`current_view` write, not shown hooks, and bind nothing to view handlers. -/
theorem hideCurrentStep_classes (w : Window) :
    ∀ a ∈ (hideCurrentStep w).2,
      a.isPush = false ∧ a.isSetCurrent = false ∧ a.isShownHook = false ∧
        ∀ e, bindsToView e a = false := by
  unfold hideCurrentStep
  split
  · intro a ha
    simp at ha
  · split <;> intro a ha <;>
      simp only [List.mem_cons, List.not_mem_nil, or_false] at ha
    · rcases ha with rfl | rfl | rfl <;> exact ⟨rfl, rfl, rfl, fun e => rfl⟩
    · rcases ha with rfl | rfl <;> exact ⟨rfl, rfl, rfl, fun e => rfl⟩

/-- Actions of the section-manager push step are not the `current_view` write,
not shown hooks, and bind nothing to view handlers. -/
theorem smPushStep_classes (stack : List Frame) (v : ViewM) :
    ∀ a ∈ (smPushStep stack v).2.2,
      a.isSetCurrent = false ∧ a.isShownHook = false ∧ ∀ e, bindsToView e a = false := by
  unfold smPushStep
  split
  · split <;> intro a ha <;>
      simp only [List.mem_cons, List.not_mem_nil, or_false] at ha
    · rcases ha with rfl
      exact ⟨rfl, rfl, fun e => rfl⟩
  · intro a ha
    simp at ha

/-- Actions of the view-handler push step are not the `current_view` write and
not shown hooks. -/
theorem viewPushStep_classes (stack : List Frame) (ets managed : List String) (v : ViewM) :
    ∀ a ∈ (viewPushStep stack ets managed v).2,
      a.isSetCurrent = false ∧ a.isShownHook = false := by
  unfold viewPushStep
  split <;> intro a ha <;>
    simp only [List.mem_cons, List.not_mem_nil, or_false] at ha
  · rcases ha with rfl
    exact ⟨rfl, rfl⟩

/-- The shown hooks are not pushes, not the `current_view` write, and bind
nothing to view handlers. -/
theorem shownHooks_classes (v : ViewM) :
    ∀ a ∈ shownHooks v,
      a.isPush = false ∧ a.isSetCurrent = false ∧ ∀ e, bindsToView e a = false := by
  unfold shownHooks
  split <;> intro a ha <;>
    simp only [List.cons_append, List.nil_append, List.mem_cons, List.not_mem_nil,
      or_false] at ha
  · rcases ha with rfl | rfl | rfl <;> exact ⟨rfl, rfl, fun e => rfl⟩
  · rcases ha with rfl | rfl <;> exact ⟨rfl, rfl, fun e => rfl⟩

/-- Binding the window back-reference leaves the section manager unchanged. -/
theorem bindStep_fst_sectionManager (wid : ℕ) (v : ViewM) :
    (bindStep wid v).1.sectionManager = v.sectionManager := by
  unfold bindStep
  split <;> rfl

/-- The managed-event set collected by the section-manager push step is the
section manager's `managed_events`. -/
theorem smPushStep_fst {stack : List Frame} {v : ViewM} {m : SectionManagerM}
    (hsm : v.sectionManager = some m) :
    (smPushStep stack v).1 = m.managed_events := by
  unfold smPushStep
  rw [hsm]
  dsimp only
  split <;> rfl

/-- A name in the managed set never survives the view-handler name filter. -/
theorem viewHandlerNames_not_contains {ets managed : List String} {v : ViewM} {e : String}
    (he : e ∈ managed) : (viewHandlerNames ets managed v).contains e = false := by
  rw [Bool.eq_false_iff]
  intro hc
  have hmem : e ∈ viewHandlerNames ets managed v := List.elem_iff.mp hc
  have hpred := List.of_mem_filter hmem
  simp only [Bool.and_eq_true, Bool.not_eq_true'] at hpred
  have hcm : managed.contains e = true := List.elem_iff.mpr he
  rw [hpred.1.2] at hcm
  exact Bool.false_ne_true hcm

/-- The trace of a successful `show_view` call, decomposed into its five
sequential parts: bind, hide-previous, `current_view` write, the two pushes,
and the shown hooks. -/
theorem show_view_trace_shape (w : Window) (v : ViewM) :
    showTrace w (PyValue.view v) =
      (bindStep w.id v).2 ++ ((hideCurrentStep w).2 ++
        (Action.setCurrentView (bindStep w.id v).1.id ::
          ((smPushStep (hideCurrentStep w).1 (bindStep w.id v).1).2.2 ++
            ((viewPushStep (smPushStep (hideCurrentStep w).1 (bindStep w.id v).1).2.1
                w.event_types (smPushStep (hideCurrentStep w).1 (bindStep w.id v).1).1
                (bindStep w.id v).1).2 ++
              shownHooks (bindStep w.id v).1)))) := by
  unfold showTrace Window.show_view
  dsimp only
  simp only [List.append_assoc]

/-- The view-handler push step binds no name of the managed set. -/
theorem viewPushStep_no_managed {stack : List Frame} {ets managed : List String} {v : ViewM}
    {e : String} (he : e ∈ managed) :
    ∀ a ∈ (viewPushStep stack ets managed v).2, bindsToView e a = false := by
  unfold viewPushStep
  split <;> intro a ha <;>
    simp only [List.mem_cons, List.not_mem_nil, or_false] at ha
  · rcases ha with rfl
    exact viewHandlerNames_not_contains he

/-- The fuel supplied by `dispatchUpdates` is not what stops the catch-up loop:
above `floor(accumulated / fixed_rate)` the result no longer depends on the
fuel, because each iteration needs `accumulated ≥ fixed_rate > 0` and lowers
the accumulated time by exactly `fixed_rate`. -/
theorem drainLoop_fuel_irrelevant (fuel : ℕ) (w : Window) (count : ℕ)
    (evs : List UpdateEvent) (hrate : 0 < w.fixed_rate)
    (hfuel : (Rat.floor (FixedClock.accumulated w.fixed_clock w.global_clock / w.fixed_rate)).toNat
      < fuel) :
    drainLoop fuel w count evs = drainLoop (fuel + 1) w count evs := by
  induction fuel generalizing w count evs with
  | zero => omega
  | succ n ih =>
    by_cases hcond : FixedClock.accumulated w.fixed_clock w.global_clock ≥ w.fixed_rate ∧
        capOk w.fixed_frame_cap count = true
    · rw [drainLoop, drainLoop, if_pos hcond, if_pos hcond]
      have hRI : ∀ q : ℚ, Rat.floor q = Int.floor q := fun q => rfl
      have hacc2 : FixedClock.accumulated (w.fixed_clock.tick w.fixed_rate) w.global_clock =
          FixedClock.accumulated w.fixed_clock w.global_clock - w.fixed_rate := by
        simp only [FixedClock.accumulated, FixedClock.tick]
        ring
      apply ih
      · exact hrate
      · show (Rat.floor (FixedClock.accumulated (w.fixed_clock.tick w.fixed_rate) w.global_clock /
          w.fixed_rate)).toNat < n
        rw [hacc2, sub_div, div_self (ne_of_gt hrate), hRI]
        have hfl : Int.floor (FixedClock.accumulated w.fixed_clock w.global_clock / w.fixed_rate
            - 1) = Int.floor (FixedClock.accumulated w.fixed_clock w.global_clock / w.fixed_rate)
            - 1 := by
          exact_mod_cast Int.floor_sub_int
            (FixedClock.accumulated w.fixed_clock w.global_clock / w.fixed_rate) 1
        rw [hfl]
        have h1 : (1 : ℤ) ≤ Int.floor
            (FixedClock.accumulated w.fixed_clock w.global_clock / w.fixed_rate) := by
          rw [Int.le_floor]
          push_cast
          exact (one_le_div hrate).mpr hcond.1
        rw [hRI] at hfuel
        omega
    · rw [drainLoop, drainLoop, if_neg hcond, if_neg hcond]


/-! ### The claims -/

/-- C1: the claim says at most `fixed_frame_cap` fixed-update dispatches per
firing of the update trigger.  The code's loop guard `fixed_count <=
self._fixed_frame_cap` admits one iteration too many: evaluating
`_dispatch_updates` on a window with `fixed_rate = 1/60` and
`fixed_frame_cap = 1`, a single firing with frame delta `3/60` performs 2
fixed-update dispatches, exceeding the cap of 1 and contradicting the
parameter's documentation ("the maximum number of fixed updates that can occur
in one update loop"). -/
theorem cap_one_firing_two_fixed_dispatches :
    ((cappedWindow.dispatchUpdates (3/60)).2.countP UpdateEvent.isFixed) = 2 := by
  norm_num [Window.dispatchUpdates, drainLoop, capOk, FixedClock.accumulated, Clock.tick,
    FixedClock.tick, cappedWindow, baseWindow, UpdateEvent.isFixed, List.countP, List.countP.go]

/-- C2: the claim's capped catch-up scenario (`fixed_frame_cap = 1`,
`fixed_rate = 1/60`, first frame delta `3/60`, second frame delta `0`) expects
dispatch counts 1 then 1 with `2/60` retained in between.  Evaluating the
code: the first firing performs 2 fixed-update dispatches and retains `1/60`,
the second performs 1 and drains the accumulator to 0 — leftover time is
indeed carried over, but the per-frame count exceeds the cap. -/
theorem cap_one_catchup_across_frames_eval :
    ((cappedWindow.dispatchUpdates (3/60)).2.countP UpdateEvent.isFixed) = 2 ∧
    FixedClock.accumulated (cappedWindow.dispatchUpdates (3/60)).1.fixed_clock
      (cappedWindow.dispatchUpdates (3/60)).1.global_clock = 1/60 ∧
    (((cappedWindow.dispatchUpdates (3/60)).1.dispatchUpdates 0).2.countP UpdateEvent.isFixed)
      = 1 ∧
    FixedClock.accumulated
      ((cappedWindow.dispatchUpdates (3/60)).1.dispatchUpdates 0).1.fixed_clock
      ((cappedWindow.dispatchUpdates (3/60)).1.dispatchUpdates 0).1.global_clock = 0 := by
  refine ⟨?_, ?_, ?_, ?_⟩ <;>
  norm_num [Window.dispatchUpdates, drainLoop, capOk, FixedClock.accumulated, Clock.tick,
    FixedClock.tick, cappedWindow, baseWindow, UpdateEvent.isFixed, List.countP, List.countP.go]

/-- C3: on a window with no `fixed_frame_cap`, `fixed_rate = 1/60` and a
drained accumulator, one firing of the update trigger with frame delta `1/30`
dispatches exactly two fixed updates, both before the single variable update,
and leaves the accumulator at exactly 0. -/
theorem uncapped_two_fixed_updates_before_variable_update (w : Window)
    (hr : w.fixed_rate = 1/60) (hc : w.fixed_frame_cap = none)
    (ha : FixedClock.accumulated w.fixed_clock w.global_clock = 0) :
    (w.dispatchUpdates (1/30)).2 =
      [UpdateEvent.fixedUpdate (1/60), UpdateEvent.fixedUpdate (1/60),
        UpdateEvent.update (1/30)] ∧
    FixedClock.accumulated (w.dispatchUpdates (1/30)).1.fixed_clock
      (w.dispatchUpdates (1/30)).1.global_clock = 0 := by
  have ht : w.global_clock.time = w.fixed_clock.time := by
    have h0 := ha
    simp only [FixedClock.accumulated, sub_eq_zero] at h0
    exact h0
  have h3 : w.fixed_clock.time + (1:ℚ)/30 - (w.fixed_clock.time + 1/60 + 1/60) = 0 := by ring
  constructor <;>
  · norm_num [Window.dispatchUpdates, drainLoop, capOk, FixedClock.accumulated, Clock.tick,
      FixedClock.tick, ht, hr, hc]
    rw [h3]
    norm_num [h3]

/-- C3 witness: the fresh default window satisfies the hypotheses, and the
firing with delta `1/30` behaves as stated. -/
theorem uncapped_two_fixed_updates_witness :
    baseWindow.fixed_rate = 1/60 ∧ baseWindow.fixed_frame_cap = none ∧
    FixedClock.accumulated baseWindow.fixed_clock baseWindow.global_clock = 0 ∧
    ((baseWindow.dispatchUpdates (1/30)).2 =
        [UpdateEvent.fixedUpdate (1/60), UpdateEvent.fixedUpdate (1/60),
          UpdateEvent.update (1/30)] ∧
      FixedClock.accumulated (baseWindow.dispatchUpdates (1/30)).1.fixed_clock
        (baseWindow.dispatchUpdates (1/30)).1.global_clock = 0) :=
  ⟨rfl, rfl, by norm_num [FixedClock.accumulated, baseWindow],
    uncapped_two_fixed_updates_before_variable_update baseWindow rfl rfl
      (by norm_num [FixedClock.accumulated, baseWindow])⟩

/-- C4 counterexample: the claim says the handler pushes of `show_view` happen
before `current_view` is written.  On a concrete window and view, a push
occurs strictly after the `current_view` write, so the claimed order is false:
the code sets `self._current_view = new_view` (line 844) before pushing any
handlers. -/
theorem show_view_pushes_before_set_false :
    noneAfter Action.isPush Action.isSetCurrent
      (showTrace baseWindow (PyValue.view plainView)) = false := by
  decide

/-- C4 amended: in every `show_view(V)` call the `current_view` write comes
first, then the SectionManager and view handler pushes, and the shown hooks
run after the pushes (and after the write). -/
theorem show_view_sets_current_then_pushes_then_hooks (w : Window) (v : ViewM) :
    (showTrace w (PyValue.view v)).any Action.isSetCurrent = true ∧
    noneBefore Action.isPush Action.isSetCurrent (showTrace w (PyValue.view v)) = true ∧
    noneBefore Action.isShownHook Action.isSetCurrent (showTrace w (PyValue.view v)) = true ∧
    noneAfter Action.isPush Action.isShownHook (showTrace w (PyValue.view v)) = true := by
  rw [show_view_trace_shape]
  refine ⟨?_, ?_, ?_, ?_⟩
  · simp [Action.isSetCurrent]
  · refine noneBefore_append_left
      (fun a ha => ⟨(bindStep_classes w.id v a ha).1, (bindStep_classes w.id v a ha).2.1⟩) ?_
    refine noneBefore_append_left
      (fun a ha => ⟨(hideCurrentStep_classes w a ha).1, (hideCurrentStep_classes w a ha).2.1⟩) ?_
    exact noneBefore_cons_of_stop rfl
  · refine noneBefore_append_left
      (fun a ha => ⟨(bindStep_classes w.id v a ha).2.2.1, (bindStep_classes w.id v a ha).2.1⟩) ?_
    refine noneBefore_append_left
      (fun a ha =>
        ⟨(hideCurrentStep_classes w a ha).2.2.1, (hideCurrentStep_classes w a ha).2.1⟩) ?_
    exact noneBefore_cons_of_stop rfl
  · have hshape :
        (bindStep w.id v).2 ++ ((hideCurrentStep w).2 ++
          (Action.setCurrentView (bindStep w.id v).1.id ::
            ((smPushStep (hideCurrentStep w).1 (bindStep w.id v).1).2.2 ++
              ((viewPushStep (smPushStep (hideCurrentStep w).1 (bindStep w.id v).1).2.1
                  w.event_types (smPushStep (hideCurrentStep w).1 (bindStep w.id v).1).1
                  (bindStep w.id v).1).2 ++
                shownHooks (bindStep w.id v).1)))) =
        ((bindStep w.id v).2 ++ ((hideCurrentStep w).2 ++
          (Action.setCurrentView (bindStep w.id v).1.id ::
            ((smPushStep (hideCurrentStep w).1 (bindStep w.id v).1).2.2 ++
              (viewPushStep (smPushStep (hideCurrentStep w).1 (bindStep w.id v).1).2.1
                  w.event_types (smPushStep (hideCurrentStep w).1 (bindStep w.id v).1).1
                  (bindStep w.id v).1).2)))) ++
          shownHooks (bindStep w.id v).1 := by
      simp [List.append_assoc]
    rw [hshape]
    refine noneAfter_append (fun a ha => ?_) (fun a ha => (shownHooks_classes _ a ha).1)
    simp only [List.mem_append, List.mem_cons] at ha
    rcases ha with hb | hh | rfl | hsm | hv
    · exact (bindStep_classes w.id v a hb).2.2.1
    · exact (hideCurrentStep_classes w a hh).2.2.1
    · rfl
    · exact (smPushStep_classes _ _ a hsm).2.1
    · exact (viewPushStep_classes _ _ _ _ a hv).2

/-- C5: `show_view` on a non-View value raises the type-mismatch error as its
very first step: the window state it leaves behind is the unchanged input
state, and the trace is empty — no hook ran, no handler was pushed or removed,
`current_view` was not written. -/
theorem show_view_type_error_no_mutation (w : Window) (typeName : String) :
    w.show_view (PyValue.other typeName) = ShowResult.typeError w [] := rfl

/-- C6: under the handler-stack ownership invariant, `hide_view` clears
`current_view`; it is a no-op (no error, no unregistration, no hook) when no
view is active — in particular a second consecutive `hide_view` is a no-op —
when a view is active its hide hook is invoked (and its section manager's hide
hook, when the view has sections), and afterwards every frame left on the
handler stack is window-owned, so dispatch reaches only window-level default
handlers. -/
theorem hide_view_noop_and_clears_handlers (w : Window) (hown : ownersOK w = true) :
    w.hide_view.1.current_view = none ∧
    (w.current_view = none → w.hide_view = (w, [])) ∧
    (∀ c, w.current_view = some c →
      Action.hideHook c.id ∈ w.hide_view.2 ∧
      (c.has_sections = true → Action.smHideHook c.id ∈ w.hide_view.2)) ∧
    w.hide_view.1.hide_view = (w.hide_view.1, ([] : List Action)) ∧
    allWindowOwned w.hide_view.1.handler_stack = true := by
  rcases hcv : w.current_view with _ | c
  · have hnop : w.hide_view = (w, []) := by
      unfold Window.hide_view
      rw [hcv]
    refine ⟨?_, fun _ => hnop, ?_, ?_, ?_⟩
    · rw [hnop]
      exact hcv
    · intro c hc
      exact absurd hc (by simp)
    · rw [hnop, hnop]
    · rw [hnop]
      unfold ownersOK at hown
      unfold allWindowOwned
      rw [List.all_eq_true] at hown ⊢
      intro f hf
      have hfo := hown f hf
      rw [hcv] at hfo
      simpa [frameOwnerOK] using hfo
  · unfold ownersOK at hown
    rw [List.all_eq_true] at hown
    by_cases hs : c.has_sections = true
    · have hres : w.hide_view =
          ({ w with
              current_view := none
              handler_stack :=
                removeOwner (Owner.view c.id)
                  (removeOwner (Owner.sectionManager c.id) w.handler_stack) },
           [Action.hideHook c.id, Action.smHideHook c.id, Action.removeSmHandlers c.id,
            Action.removeViewHandlers c.id, Action.clearCurrentView]) := by
        unfold Window.hide_view
        rw [hcv]
        simp [hs]
      refine ⟨?_, ?_, ?_, ?_, ?_⟩
      · rw [hres]
      · intro h0
        exact absurd h0 (by simp)
      · intro c2 hc2
        rw [Option.some.injEq] at hc2
        subst hc2
        rw [hres]
        exact ⟨by simp, fun _ => by simp⟩
      · rw [hres]
        rfl
      · rw [hres]
        unfold allWindowOwned
        rw [List.all_eq_true]
        intro f hf
        simp only [removeOwner, List.mem_filter, Bool.not_eq_true',
          decide_eq_false_iff_not] at hf
        have hfo := hown f hf.1.1
        rw [hcv] at hfo
        simp only [frameOwnerOK, Bool.or_eq_true, Bool.and_eq_true, decide_eq_true_eq] at hfo
        rcases hfo with (hw | hv) | hsm
        · simp [hw]
        · exact absurd hv hf.2
        · exact absurd hsm.2 hf.1.2
    · have hs2 : c.has_sections = false := by
        rw [Bool.eq_false_iff]
        exact hs
      have hres : w.hide_view =
          ({ w with
              current_view := none
              handler_stack := removeOwner (Owner.view c.id) w.handler_stack },
           [Action.hideHook c.id, Action.removeViewHandlers c.id, Action.clearCurrentView]) := by
        unfold Window.hide_view
        rw [hcv]
        simp [hs2]
      refine ⟨?_, ?_, ?_, ?_, ?_⟩
      · rw [hres]
      · intro h0
        exact absurd h0 (by simp)
      · intro c2 hc2
        rw [Option.some.injEq] at hc2
        subst hc2
        rw [hres]
        refine ⟨by simp, fun hscontra => ?_⟩
        exact absurd hscontra hs
      · rw [hres]
        rfl
      · rw [hres]
        unfold allWindowOwned
        rw [List.all_eq_true]
        intro f hf
        simp only [removeOwner, List.mem_filter, Bool.not_eq_true',
          decide_eq_false_iff_not] at hf
        have hfo := hown f hf.1
        rw [hcv] at hfo
        simp only [frameOwnerOK, Bool.or_eq_true, Bool.and_eq_true, decide_eq_true_eq] at hfo
        rcases hfo with (hw | hv) | hsm
        · simp [hw]
        · exact absurd hv hf.2
        · rw [hs2] at hsm
          exact absurd hsm.1 (by simp)

/-- C6 witness: on a window with an active sectioned view and a mixed handler
stack, the ownership hypothesis holds and `hide_view` behaves as stated: it
invokes the view's and its section manager's hide hooks, clears
`current_view`, leaves only window-owned frames, and a second call is a
no-op. -/
theorem hide_view_noop_and_clears_handlers_witness :
    ownersOK activeWindow = true ∧
    (activeWindow.hide_view.1.current_view = none ∧
      (activeWindow.current_view = none → activeWindow.hide_view = (activeWindow, [])) ∧
      (∀ c, activeWindow.current_view = some c →
        Action.hideHook c.id ∈ activeWindow.hide_view.2 ∧
        (c.has_sections = true → Action.smHideHook c.id ∈ activeWindow.hide_view.2)) ∧
      activeWindow.hide_view.1.hide_view = (activeWindow.hide_view.1, ([] : List Action)) ∧
      allWindowOwned activeWindow.hide_view.1.handler_stack = true) :=
  ⟨by decide, hide_view_noop_and_clears_handlers activeWindow (by decide)⟩

/-- C7 counterexample: the claim says `close` unschedules both periodic
triggers.  On a window whose draw trigger is scheduled (as `run()` leaves it),
`close` leaves the draw trigger scheduled — the code only unschedules
`_dispatch_updates`. -/
theorem close_leaves_draw_scheduled :
    ¬ (((baseWindow.set_draw_rate (1/60)).close.updateScheduled = false) ∧
       ((baseWindow.set_draw_rate (1/60)).close.drawScheduled = false)) := by
  decide

/-- C7 amended: `close` unschedules the update trigger, so no further update or
fixed-update dispatch occurs; the draw trigger's scheduling is left exactly as
it was, not unscheduled. -/
theorem close_unschedules_update_only (w : Window) :
    (Window.close w).updateScheduled = false ∧
    (Window.close w).drawScheduled = w.drawScheduled :=
  ⟨rfl, rfl⟩

/-- C8: when a view's section manager claims a non-empty managed-event set, no
`show_view` call ever binds a managed name to the view's own handlers: every
view-handler push in the trace excludes every managed name. -/
theorem managed_events_never_bound_to_view (w : Window) (v : ViewM) (m : SectionManagerM)
    (e : String) (hm : v.sectionManager = some m) (_hne : m.managed_events ≠ [])
    (he : e ∈ m.managed_events) :
    (showTrace w (PyValue.view v)).all (fun a => !(bindsToView e a)) = true := by
  rw [show_view_trace_shape, List.all_eq_true]
  intro a ha
  simp only [List.mem_append, List.mem_cons] at ha
  have hsm1 : (bindStep w.id v).1.sectionManager = some m := by
    rw [bindStep_fst_sectionManager]
    exact hm
  have hmng : (smPushStep (hideCurrentStep w).1 (bindStep w.id v).1).1 = m.managed_events :=
    smPushStep_fst hsm1
  rcases ha with hb | hh | rfl | hsm | hv | hk
  · simp [(bindStep_classes w.id v a hb).2.2.2 e]
  · simp [(hideCurrentStep_classes w a hh).2.2.2 e]
  · rfl
  · simp [(smPushStep_classes _ _ a hsm).2.2 e]
  · simp [viewPushStep_no_managed (hmng.symm ▸ he) a hv]
  · simp [(shownHooks_classes _ a hk).2.2 e]

/-- C8 witness: showing the sectioned view (managed set `["on_mouse_press"]`,
non-empty) on the fresh window never binds the mouse-press event to the view's
own handlers. -/
theorem managed_events_never_bound_to_view_witness :
    sectionedView.sectionManager = some { managed_events := ["on_mouse_press"] } ∧
    ({ managed_events := ["on_mouse_press"] } : SectionManagerM).managed_events ≠ [] ∧
    mousePressName ∈ ({ managed_events := ["on_mouse_press"] } : SectionManagerM).managed_events ∧
    (showTrace baseWindow (PyValue.view sectionedView)).all
      (fun a => !(bindsToView mousePressName a)) = true :=
  ⟨rfl, by decide, by decide,
    managed_events_never_bound_to_view baseWindow sectionedView
      { managed_events := ["on_mouse_press"] } mousePressName rfl (by decide) (by decide)⟩

/-- C9: constructing a window with a non-positive `fixed_rate` fails
immediately with the configuration error — no window value is produced, so
nothing can be scheduled and no update trigger can ever fire; the failure is
not deferred to first use. -/
theorem nonpositive_fixed_rate_construction_error (id : ℕ) (baseEventTypes : List String)
    (update_rate draw_rate fixed_rate : ℚ) (cap : Option ℕ) (h : fixed_rate ≤ 0) :
    windowInit id baseEventTypes update_rate draw_rate fixed_rate cap =
      Except.error fixedRateError := by
  unfold windowInit FixedClock.create
  rw [if_pos h]

/-- C9 witness: constructing with `fixed_rate = 0` fails with the
configuration error. -/
theorem nonpositive_fixed_rate_construction_error_witness :
    (0 : ℚ) ≤ 0 ∧
    windowInit 0 [] (1/60) (1/60) 0 none = Except.error fixedRateError :=
  ⟨le_refl 0,
    nonpositive_fixed_rate_construction_error 0 [] (1/60) (1/60) 0 none (le_refl 0)⟩

/-- C10: a view constructed with no window argument while no global current
window is set has an unset (`none`) window back-reference after construction;
showing it on a window is what binds the back-reference, to that window. -/
theorem view_constructible_unattached_bound_on_show :
    (View.init 7 ["on_draw"] none none).window = none ∧
    (shownWindowOf
        (baseWindow.show_view (PyValue.view (View.init 7 ["on_draw"] none none)))).current_view =
      some { View.init 7 ["on_draw"] none none with window := some baseWindow.id } :=
  ⟨rfl, rfl⟩

end Arcade
